import Mathlib

/-! Shallow embedding of the go-todo-cli repository.

The database table `todos` (migrations/001_init_todos.sql) is modelled as a
list of rows; UUIDs and timestamps are modelled as natural numbers (both are
opaque identifiers / totally ordered instants for the purposes of the
statements below).  Each Go function is translated into a pure Lean function:
the effects `uuid.New()` and `time.Now()` become explicit parameters, and a
database round trip becomes a function from the current table contents to the
new table contents plus the Go return values.  `error` results are modelled
with `Except DBError`; only data-dependent errors are modelled (connectivity
failures are outside the embedding, as in the repository's own unit tests).
-/

/-- Row of the `todos` table / `domain.Todo` (internal/domain/todo.go). -/
structure Todo where
  id : Nat
  title : String
  description : String
  completed : Bool
  createdAt : Nat
  updatedAt : Nat
deriving DecidableEq, Repr

/-- Request type domain.CreateTodoRequest. -/
structure CreateTodoRequest where
  title : String
  description : String
deriving DecidableEq, Repr

/-- Request type domain.UpdateTodoRequest. -/
structure UpdateTodoRequest where
  id : Nat
  title : String
  description : String
deriving DecidableEq, Repr

/-- Data-dependent database errors surfaced by the pgx driver:
`noRows` is pgx.ErrNoRows ("no rows in result set"), the NotFound case;
`uniqueViolation` is the primary-key conflict on INSERT, the Conflict case. -/
inductive DBError where
  | noRows
  | uniqueViolation
deriving DecidableEq, Repr

/-- Contents of the `todos` table. The schema declares `id UUID PRIMARY KEY`,
so well-formed states have pairwise distinct ids. -/
abbrev DB := List Todo

/-- Ordering used by `FindAll`: `ORDER BY created_at DESC`. -/
def createdAtDesc (a b : Todo) : Prop := b.createdAt ≤ a.createdAt

instance : DecidableRel createdAtDesc := fun _ _ => Nat.decLe _ _

namespace TodoRepository

/-- `TodoRepository.FindAll` (internal/repository): `SELECT ... FROM todos
ORDER BY created_at DESC`, scanning every row into a slice.  A result set
with zero rows yields the empty list and no error (the Go code returns a nil
slice and a nil error). -/
def FindAll (db : DB) : List Todo :=
  List.insertionSort createdAtDesc db

/-- `TodoRepository.FindByID`: `SELECT ... FROM todos WHERE id = $1` through
`QueryRow`, which yields the first matching row or pgx.ErrNoRows. -/
def FindByID (db : DB) (id : Nat) : Except DBError Todo :=
  match db.find? (fun row => row.id == id) with
  | some row => .ok row
  | none => .error .noRows

/-- `TodoRepository.Create`: `INSERT INTO todos (id, title, description,
completed, created_at, updated_at) VALUES ($1,...,$6)`; the primary key on
`id` makes the insert fail with a unique violation when the id is taken. -/
def Create (db : DB) (todo : Todo) : Except DBError DB :=
  if db.any (fun row => row.id == todo.id) then
    .error .uniqueViolation
  else
    .ok (db ++ [todo])

/-- Effect of `UPDATE todos SET title = $1, description = $2, updated_at = $3
WHERE id = $4` on one row. -/
def updateRow (todo : Todo) (row : Todo) : Todo :=
  if row.id == todo.id then
    { row with title := todo.title, description := todo.description,
               updatedAt := todo.updatedAt }
  else
    row

/-- `TodoRepository.Update`: executes the UPDATE statement above and returns
`err` from `Exec` alone; the command tag (rows affected) is discarded with
`_`, so a statement matching zero rows still returns a nil error. -/
def Update (db : DB) (todo : Todo) : Except DBError DB :=
  .ok (db.map (updateRow todo))

/-- `TodoRepository.Delete`: `DELETE FROM todos WHERE id = $1`; again the
command tag is discarded, so deleting a missing id returns a nil error. -/
def Delete (db : DB) (id : Nat) : Except DBError DB :=
  .ok (db.filter (fun row => !(row.id == id)))

end TodoRepository

namespace todoServiceImpl

/-- `todoServiceImpl.FindAllTodos`: direct pass-through to the gateway. -/
def FindAllTodos (db : DB) : List Todo :=
  TodoRepository.FindAll db

/-- `todoServiceImpl.FindTodoByID`: direct pass-through to the gateway. -/
def FindTodoByID (db : DB) (id : Nat) : Except DBError Todo :=
  TodoRepository.FindByID db id

/-- `todoServiceImpl.CreateTodo` (internal/service/todo_service.go:36-51):
builds the entity with `uuid.New()` (parameter `newId`), `Completed: false`,
and two separate `time.Now()` calls for the created and updated stamps
(parameters `now1` and `now2`), then delegates to the gateway `Create` and
returns the constructed entity. -/
def CreateTodo (db : DB) (request : CreateTodoRequest) (newId now1 now2 : Nat) :
    Except DBError (Todo × DB) :=
  let todo : Todo :=
    { id := newId, title := request.title, description := request.description,
      completed := false, createdAt := now1, updatedAt := now2 }
  match TodoRepository.Create db todo with
  | .error e => .error e
  | .ok db2 => .ok (todo, db2)

/-- `todoServiceImpl.UpdateTodo` (todo_service.go:53-68): loads the entity by
id (propagating the error), overwrites title and description from the request,
refreshes the updated stamp with `time.Now()` (parameter `now`), delegates to
the gateway `Update`, and returns the mutated entity. -/
def UpdateTodo (db : DB) (request : UpdateTodoRequest) (now : Nat) :
    Except DBError (Todo × DB) :=
  match TodoRepository.FindByID db request.id with
  | .error e => .error e
  | .ok todo =>
    let todo2 : Todo :=
      { todo with title := request.title, description := request.description,
                  updatedAt := now }
    match TodoRepository.Update db todo2 with
    | .error e => .error e
    | .ok db2 => .ok (todo2, db2)

/-- `todoServiceImpl.DeleteTodo`: direct pass-through to the gateway. -/
def DeleteTodo (db : DB) (id : Nat) : Except DBError DB :=
  TodoRepository.Delete db id

/-- `todoServiceImpl.ToggleTodo` (todo_service.go:74-87): loads the entity by
id (propagating the error), flips `Completed`, delegates to the gateway
`Update` — without refreshing the updated stamp — and returns the mutated
entity. -/
def ToggleTodo (db : DB) (id : Nat) : Except DBError (Todo × DB) :=
  match TodoRepository.FindByID db id with
  | .error e => .error e
  | .ok todo =>
    let todo2 : Todo := { todo with completed := !todo.completed }
    match TodoRepository.Update db todo2 with
    | .error e => .error e
    | .ok db2 => .ok (todo2, db2)

end todoServiceImpl

namespace CLI

/-- Loop body of the `list` command's client-side filter
(internal/cli, findAllCommand): an item is skipped when
`filterCompleted && !todo.Completed`, otherwise skipped when
`filterPending && todo.Completed`, otherwise kept. -/
def keepTodo (filterCompleted filterPending : Bool) (todo : Todo) : Bool :=
  if filterCompleted && !todo.completed then
    false
  else if filterPending && todo.completed then
    false
  else
    true

/-- The `filteredTodos` slice accumulated by the `list` command's loop over
the fetched todos. -/
def findAllCommandFilter (filterCompleted filterPending : Bool)
    (todos : List Todo) : List Todo :=
  todos.filter (keepTodo filterCompleted filterPending)

/-- Cobra string flags are registered with default value `""`, so a flag the
caller did not supply reads back as the empty string. -/
def flagStringOrDefault (flag : Option String) : String :=
  flag.getD ""

/-- Core of the `update` command (internal/cli, updateCommand): reads the
`--title` and `--description` flags (empty string when not supplied), builds
an `UpdateTodoRequest` for the parsed id, and calls the service. -/
def updateCommand (db : DB) (id : Nat) (titleFlag descriptionFlag : Option String)
    (now : Nat) : Except DBError (Todo × DB) :=
  todoServiceImpl.UpdateTodo db
    { id := id, title := flagStringOrDefault titleFlag,
      description := flagStringOrDefault descriptionFlag } now

end CLI

/-! Helper lemmas shared by the claim theorems. -/

/-- A successful FindByID returns a stored row whose id is the requested one. -/
theorem FindByID_ok_spec {db : DB} {id : Nat} {t : Todo}
    (h : TodoRepository.FindByID db id = .ok t) : t ∈ db ∧ t.id = id := by
  unfold TodoRepository.FindByID at h
  cases hf : db.find? (fun row => row.id == id) with
  | none => rw [hf] at h; exact absurd h (by simp)
  | some row =>
    rw [hf] at h
    have hrt : row = t := by
      simpa using h
    subst hrt
    refine ⟨List.mem_of_find?_eq_some hf, ?_⟩
    simpa using List.find?_some hf

/-- Under the primary-key invariant, an UPDATE that writes back exactly the
fields the unique matching row already has is the identity on the table. -/
theorem map_updateRow_self {db : DB} {t : Todo}
    (hids : (db.map Todo.id).Nodup) (hmem : t ∈ db)
    {u : Todo} (hid : u.id = t.id) (hti : u.title = t.title)
    (hde : u.description = t.description) (hup : u.updatedAt = t.updatedAt) :
    db.map (TodoRepository.updateRow u) = db := by
  have hrows : ∀ row ∈ db, TodoRepository.updateRow u row = row := by
    intro row hrow
    unfold TodoRepository.updateRow
    by_cases hcase : row.id = u.id
    · have hrt : row = t :=
        List.inj_on_of_nodup_map hids hrow hmem (by rw [hcase, hid])
      subst hrt
      have hb : (row.id == u.id) = true := by simpa using hcase
      simp [hb, hti, hde, hup, hid]
    · have hb : (row.id == u.id) = false := by simpa using hcase
      simp [hb]
  calc db.map (TodoRepository.updateRow u)
      = db.map (fun row => row) := List.map_congr_left hrows
    _ = db := by simp

/-- Unfolding of a successful UpdateTodo call. -/
theorem UpdateTodo_ok_spec {db : DB} {request : UpdateTodoRequest} {now : Nat}
    {t2 : Todo} {db2 : DB}
    (h : todoServiceImpl.UpdateTodo db request now = .ok (t2, db2)) :
    ∃ t, TodoRepository.FindByID db request.id = .ok t ∧
      t2 = { t with title := request.title, description := request.description,
                    updatedAt := now } ∧
      db2 = db.map (TodoRepository.updateRow t2) := by
  unfold todoServiceImpl.UpdateTodo at h
  cases hf : TodoRepository.FindByID db request.id with
  | error e => rw [hf] at h; exact absurd h (by simp)
  | ok t =>
    rw [hf] at h
    simp only [TodoRepository.Update] at h
    have h2 := h
    simp only [Except.ok.injEq, Prod.mk.injEq] at h2
    exact ⟨t, rfl, h2.1.symm, by rw [← h2.1]; exact h2.2.symm⟩

/-- Unfolding of a successful ToggleTodo call. -/
theorem ToggleTodo_ok_spec {db : DB} {id : Nat} {t2 : Todo} {db2 : DB}
    (h : todoServiceImpl.ToggleTodo db id = .ok (t2, db2)) :
    ∃ t, TodoRepository.FindByID db id = .ok t ∧
      t2 = { t with completed := !t.completed } ∧
      db2 = db.map (TodoRepository.updateRow t2) := by
  unfold todoServiceImpl.ToggleTodo at h
  cases hf : TodoRepository.FindByID db id with
  | error e => rw [hf] at h; exact absurd h (by simp)
  | ok t =>
    rw [hf] at h
    simp only [TodoRepository.Update] at h
    have h2 := h
    simp only [Except.ok.injEq, Prod.mk.injEq] at h2
    exact ⟨t, rfl, h2.1.symm, by rw [← h2.1]; exact h2.2.symm⟩

/-- C2: ToggleTodo on an existing todo leaves the stored table entirely
unchanged — the UPDATE writes only title, description and updated_at, with
exactly the values just loaded — so the flipped completed flag exists only in
the returned entity, never in the stored state. -/
theorem ToggleTodo_leaves_stored_state_unchanged (db : DB) (id : Nat)
    (t2 : Todo) (db2 : DB)
    (hids : (db.map Todo.id).Nodup)
    (h : todoServiceImpl.ToggleTodo db id = .ok (t2, db2)) :
    db2 = db ∧
    ∃ t, TodoRepository.FindByID db id = .ok t ∧
      t2.completed = !t.completed ∧ t2.id = t.id ∧ t2.title = t.title ∧
      t2.description = t.description ∧ t2.createdAt = t.createdAt ∧
      t2.updatedAt = t.updatedAt := by
  obtain ⟨t, hfind, ht2, hdb2⟩ := ToggleTodo_ok_spec h
  obtain ⟨hmem, -⟩ := FindByID_ok_spec hfind
  subst ht2
  subst hdb2
  refine ⟨map_updateRow_self hids hmem rfl rfl rfl rfl, t, hfind, rfl, rfl, rfl, rfl, rfl, rfl⟩

/-- C6: UpdateTodo on an existing todo changes only title, description and
updated_at, leaving id, created_at and completed unchanged both in the
returned entity and in every persisted row. -/
theorem UpdateTodo_frame (db : DB) (request : UpdateTodoRequest) (now : Nat)
    (t2 : Todo) (db2 : DB)
    (h : todoServiceImpl.UpdateTodo db request now = .ok (t2, db2)) :
    (∃ t, TodoRepository.FindByID db request.id = .ok t ∧
      t2.id = t.id ∧ t2.createdAt = t.createdAt ∧ t2.completed = t.completed ∧
      t2.title = request.title ∧ t2.description = request.description ∧
      t2.updatedAt = now) ∧
    db2 = db.map (fun row =>
      if row.id = request.id then
        { row with title := request.title, description := request.description,
                   updatedAt := now }
      else row) ∧
    db2.map Todo.id = db.map Todo.id ∧
    db2.map Todo.createdAt = db.map Todo.createdAt ∧
    db2.map Todo.completed = db.map Todo.completed ∧
    (∀ row ∈ db, row.id ≠ request.id → row ∈ db2) := by
  obtain ⟨t, hfind, ht2, hdb2⟩ := UpdateTodo_ok_spec h
  obtain ⟨hmem, hid⟩ := FindByID_ok_spec hfind
  have hrow : ∀ row : Todo, TodoRepository.updateRow t2 row =
      (if row.id = request.id then
        { row with title := request.title, description := request.description,
                   updatedAt := now }
      else row) := by
    intro row
    subst ht2
    unfold TodoRepository.updateRow
    by_cases hcase : row.id = request.id
    · have hb : (row.id == t.id) = true := by simp [hcase, hid]
      simp [hb, if_pos hcase]
    · have hb : (row.id == t.id) = false := by
        simp; intro hcon; exact absurd (hcon.trans hid) hcase
      simp [hb, if_neg hcase]
  have hdb2f : db2 = db.map (fun row =>
      if row.id = request.id then
        { row with title := request.title, description := request.description,
                   updatedAt := now }
      else row) := by
    rw [hdb2]
    exact List.map_congr_left (fun row _ => hrow row)
  refine ⟨⟨t, hfind, by simp [ht2], by simp [ht2], by simp [ht2], by simp [ht2],
      by simp [ht2], by simp [ht2]⟩, hdb2f, ?_, ?_, ?_, ?_⟩
  · rw [hdb2f, List.map_map]
    refine List.map_congr_left (fun row _ => ?_)
    by_cases hcase : row.id = request.id <;> simp [hcase]
  · rw [hdb2f, List.map_map]
    refine List.map_congr_left (fun row _ => ?_)
    by_cases hcase : row.id = request.id <;> simp [hcase]
  · rw [hdb2f, List.map_map]
    refine List.map_congr_left (fun row _ => ?_)
    by_cases hcase : row.id = request.id <;> simp [hcase]
  · intro row hrowmem hne
    rw [hdb2f]
    exact List.mem_map.mpr ⟨row, hrowmem, by simp [hne]⟩

/-- C5 (amended): every todo constructed, persisted and returned by
CreateTodo has completed = false, created_at taken from the first clock read
and updated_at from the second, so created_at ≤ updated_at whenever the clock
does not run backwards between the two time.Now() calls. -/
theorem CreateTodo_completed_false_createdAt_le_updatedAt
    (db : DB) (request : CreateTodoRequest) (newId now1 now2 : Nat)
    (t : Todo) (db2 : DB)
    (hclock : now1 ≤ now2)
    (h : todoServiceImpl.CreateTodo db request newId now1 now2 = .ok (t, db2)) :
    t.completed = false ∧ t.createdAt ≤ t.updatedAt ∧
    t.createdAt = now1 ∧ t.updatedAt = now2 ∧ t.id = newId ∧
    t.title = request.title ∧ t.description = request.description ∧
    db2 = db ++ [t] := by
  simp only [todoServiceImpl.CreateTodo, TodoRepository.Create] at h
  by_cases hc : (db.any fun row => row.id == newId) = true
  · rw [if_pos hc] at h
    simp at h
  · rw [if_neg hc] at h
    simp only [Except.ok.injEq, Prod.mk.injEq] at h
    obtain ⟨ht, hdb2⟩ := h
    subst ht
    exact ⟨rfl, hclock, rfl, rfl, rfl, rfl, rfl, hdb2.symm⟩

/-- C5 (counterexample to the claim as stated): CreateTodo samples the clock
twice; when the clock ticks between the two reads the created entity has
created_at different from updated_at. -/
theorem CreateTodo_ticking_clock_counterexample :
    todoServiceImpl.CreateTodo [] ⟨"Buy milk", ""⟩ 1 0 1 =
      .ok (⟨1, "Buy milk", "", false, 0, 1⟩, [⟨1, "Buy milk", "", false, 0, 1⟩]) ∧
    ¬ (⟨1, "Buy milk", "", false, 0, 1⟩ : Todo).createdAt =
      (⟨1, "Buy milk", "", false, 0, 1⟩ : Todo).updatedAt :=
  ⟨rfl, by decide⟩

/-- C7: FindAll returns exactly the stored rows (a permutation, so every row
exactly once), sorted by created_at descending, and the empty table yields
the empty list rather than an error. -/
theorem FindAll_perm_sorted_desc (db : DB) :
    (TodoRepository.FindAll db).Perm db ∧
    List.Sorted createdAtDesc (TodoRepository.FindAll db) ∧
    TodoRepository.FindAll [] = [] := by
  refine ⟨List.perm_insertionSort createdAtDesc db, ?_, rfl⟩
  exact @List.sorted_insertionSort Todo createdAtDesc _
    ⟨fun a b => Nat.le_total b.createdAt a.createdAt⟩
    ⟨fun a b c hab hbc => Nat.le_trans hbc hab⟩ db

/-- C8: the list command's completed and pending filters partition the
fetched result set — their concatenation is a permutation of the input and
each fetched item lands in exactly one of the two. -/
theorem list_completed_pending_partition (todos : List Todo) :
    (CLI.findAllCommandFilter true false todos ++
      CLI.findAllCommandFilter false true todos).Perm todos ∧
    ∀ t ∈ todos,
      (t ∈ CLI.findAllCommandFilter true false todos ∧
        t ∉ CLI.findAllCommandFilter false true todos) ∨
      (t ∉ CLI.findAllCommandFilter true false todos ∧
        t ∈ CLI.findAllCommandFilter false true todos) := by
  have hc : CLI.findAllCommandFilter true false todos =
      todos.filter (fun t => t.completed) := by
    unfold CLI.findAllCommandFilter
    exact List.filter_congr (fun x _ => by
      cases hx : x.completed <;> simp [CLI.keepTodo, hx])
  have hp : CLI.findAllCommandFilter false true todos =
      todos.filter (fun t => !t.completed) := by
    unfold CLI.findAllCommandFilter
    exact List.filter_congr (fun x _ => by
      cases hx : x.completed <;> simp [CLI.keepTodo, hx])
  constructor
  · rw [hc, hp]
    exact List.filter_append_perm (fun t => t.completed) todos
  · intro t ht
    rw [hc, hp]
    cases hx : t.completed with
    | true => exact Or.inl ⟨List.mem_filter.mpr ⟨ht, hx⟩,
        fun hmm => by simpa [hx] using (List.mem_filter.mp hmm).2⟩
    | false => exact Or.inr ⟨fun hmm => by simpa [hx] using (List.mem_filter.mp hmm).2,
        List.mem_filter.mpr ⟨ht, by simp [hx]⟩⟩

/-- C9: a flag the caller did not supply reaches the update command as the
empty string, and the service persists that empty string as the new field
value in the returned entity and in every row matching the id. -/
theorem updateCommand_missing_flag_blanks_field (db : DB) (id : Nat)
    (titleFlag descriptionFlag : Option String) (now : Nat) (t2 : Todo) (db2 : DB)
    (h : CLI.updateCommand db id titleFlag descriptionFlag now = .ok (t2, db2)) :
    (titleFlag = none →
      t2.title = "" ∧ ∀ row ∈ db2, row.id = id → row.title = "") ∧
    (descriptionFlag = none →
      t2.description = "" ∧ ∀ row ∈ db2, row.id = id → row.description = "") := by
  unfold CLI.updateCommand at h
  obtain ⟨t, hfind, ht2, hdb2⟩ := UpdateTodo_ok_spec h
  obtain ⟨-, hid⟩ := FindByID_ok_spec hfind
  have ht2id : t2.id = id := by rw [ht2]; exact hid
  have key : ∀ row ∈ db2, row.id = id →
      row.title = t2.title ∧ row.description = t2.description := by
    intro row hrow hrid
    rw [hdb2] at hrow
    obtain ⟨r, hr, hfr⟩ := List.mem_map.mp hrow
    by_cases hb : (r.id == t2.id) = true
    · rw [← hfr]
      unfold TodoRepository.updateRow
      rw [if_pos hb]
      exact ⟨rfl, rfl⟩
    · have hrr : row = r := by
        rw [← hfr]; unfold TodoRepository.updateRow; rw [if_neg hb]
      exfalso
      apply hb
      simp only [beq_iff_eq]
      rw [ht2id, ← hrid, hrr]
  constructor
  · intro hnone
    have htt : t2.title = "" := by
      rw [ht2]; simp [hnone, CLI.flagStringOrDefault]
    exact ⟨htt, fun row hrow hrid => htt ▸ (key row hrow hrid).1⟩
  · intro hnone
    have htd : t2.description = "" := by
      rw [ht2]; simp [hnone, CLI.flagStringOrDefault]
    exact ⟨htd, fun row hrow hrid => htd ▸ (key row hrow hrid).2⟩

/-- C10: deleting a stored todo by its id and then looking the same id up
fails with the no-rows (NotFound) error. -/
theorem DeleteTodo_then_FindByID_notFound (db : DB) (t : Todo) (db2 : DB)
    (hmem : t ∈ db)
    (h : todoServiceImpl.DeleteTodo db t.id = .ok db2) :
    TodoRepository.FindByID db2 t.id = .error DBError.noRows := by
  unfold todoServiceImpl.DeleteTodo TodoRepository.Delete at h
  simp only [Except.ok.injEq] at h
  subst h
  unfold TodoRepository.FindByID
  have hnone : (db.filter (fun row => !(row.id == t.id))).find?
      (fun row => row.id == t.id) = none := by
    rw [List.find?_eq_none]
    intro x hx
    have hxf := (List.mem_filter.mp hx).2
    simp at hxf ⊢
    exact hxf
  rw [hnone]

/-- C1 (evaluated at the failing input): toggling the same id twice does not
return the original completed value — both calls return completed = true for
a todo stored with completed = false, because the UPDATE never persists the
flipped flag, and the stored row still holds completed = false afterwards. -/
theorem ToggleTodo_twice_still_flipped :
    (match todoServiceImpl.ToggleTodo [⟨7, "Buy milk", "", false, 0, 0⟩] 7 with
      | .ok (_, db1) => todoServiceImpl.ToggleTodo db1 7
      | .error e => .error e) =
      .ok (⟨7, "Buy milk", "", true, 0, 0⟩, [⟨7, "Buy milk", "", false, 0, 0⟩]) ∧
    (⟨7, "Buy milk", "", true, 0, 0⟩ : Todo).completed ≠
      (⟨7, "Buy milk", "", false, 0, 0⟩ : Todo).completed :=
  ⟨rfl, by decide⟩

/-- C3 (evaluated at the failing input): an UPDATE whose id matches no stored
row affects zero rows yet returns success, because the code discards the
command tag; no NotFound error is produced. -/
theorem Update_zero_rows_affected_no_error :
    TodoRepository.Update [⟨1, "Existing", "", false, 0, 0⟩]
      ⟨5, "Non-existent", "Should not exists", false, 0, 0⟩ =
      .ok [⟨1, "Existing", "", false, 0, 0⟩] := rfl

/-- C4 (evaluated at the failing input): a DELETE whose id matches no stored
row affects zero rows yet returns success, because the code discards the
command tag; no NotFound error is produced. -/
theorem Delete_zero_rows_affected_no_error :
    TodoRepository.Delete [⟨1, "Existing", "", false, 0, 0⟩] 5 =
      .ok [⟨1, "Existing", "", false, 0, 0⟩] := rfl

/-- Witness for C2 at a concrete store: the single stored row has a nodup id
column, the toggle call succeeds returning the flipped entity, and the store
is unchanged. -/
theorem ToggleTodo_leaves_stored_state_unchanged_witness :
    (([(⟨7, "a", "b", false, 1, 2⟩ : Todo)] : DB).map Todo.id).Nodup ∧
    todoServiceImpl.ToggleTodo [⟨7, "a", "b", false, 1, 2⟩] 7 =
      .ok (⟨7, "a", "b", true, 1, 2⟩, [⟨7, "a", "b", false, 1, 2⟩]) ∧
    [(⟨7, "a", "b", false, 1, 2⟩ : Todo)] = [⟨7, "a", "b", false, 1, 2⟩] := by
  have h := ToggleTodo_leaves_stored_state_unchanged [⟨7, "a", "b", false, 1, 2⟩] 7
    ⟨7, "a", "b", true, 1, 2⟩ [⟨7, "a", "b", false, 1, 2⟩] (by decide) rfl
  exact ⟨by decide, rfl, h.1⟩

/-- Witness for C5 (amended) at a concrete creation: the clock reads 3 then
4, the call succeeds, and the created entity is pending with createdAt at
most updatedAt. -/
theorem CreateTodo_completed_false_createdAt_le_updatedAt_witness :
    (3 : Nat) ≤ 4 ∧
    todoServiceImpl.CreateTodo [] ⟨"Learn Go", "Study"⟩ 1 3 4 =
      .ok (⟨1, "Learn Go", "Study", false, 3, 4⟩, [⟨1, "Learn Go", "Study", false, 3, 4⟩]) ∧
    (⟨1, "Learn Go", "Study", false, 3, 4⟩ : Todo).completed = false ∧
    (⟨1, "Learn Go", "Study", false, 3, 4⟩ : Todo).createdAt ≤
      (⟨1, "Learn Go", "Study", false, 3, 4⟩ : Todo).updatedAt := by
  have h := CreateTodo_completed_false_createdAt_le_updatedAt [] ⟨"Learn Go", "Study"⟩
    1 3 4 ⟨1, "Learn Go", "Study", false, 3, 4⟩ [⟨1, "Learn Go", "Study", false, 3, 4⟩]
    (by decide) rfl
  exact ⟨by decide, rfl, h.1, h.2.1⟩

/-- Witness for C6 at a concrete store: updating the stored row succeeds and
the completed column of the table is untouched. -/
theorem UpdateTodo_frame_witness :
    todoServiceImpl.UpdateTodo [⟨3, "old", "od", true, 5, 6⟩] ⟨3, "new", "nd"⟩ 9 =
      .ok (⟨3, "new", "nd", true, 5, 9⟩, [⟨3, "new", "nd", true, 5, 9⟩]) ∧
    ([(⟨3, "new", "nd", true, 5, 9⟩ : Todo)] : DB).map Todo.completed =
      ([(⟨3, "old", "od", true, 5, 6⟩ : Todo)] : DB).map Todo.completed ∧
    ([(⟨3, "new", "nd", true, 5, 9⟩ : Todo)] : DB).map Todo.createdAt =
      ([(⟨3, "old", "od", true, 5, 6⟩ : Todo)] : DB).map Todo.createdAt := by
  have h := UpdateTodo_frame [⟨3, "old", "od", true, 5, 6⟩] ⟨3, "new", "nd"⟩ 9
    ⟨3, "new", "nd", true, 5, 9⟩ [⟨3, "new", "nd", true, 5, 9⟩] rfl
  exact ⟨rfl, h.2.2.2.2.1, h.2.2.2.1⟩

/-- Witness for C7 at a concrete store of two rows. -/
theorem FindAll_perm_sorted_desc_witness :
    (TodoRepository.FindAll [⟨1, "a", "", false, 0, 0⟩, ⟨2, "b", "", true, 5, 5⟩]).Perm
      [⟨1, "a", "", false, 0, 0⟩, ⟨2, "b", "", true, 5, 5⟩] ∧
    TodoRepository.FindAll [] = [] := by
  have h := FindAll_perm_sorted_desc [⟨1, "a", "", false, 0, 0⟩, ⟨2, "b", "", true, 5, 5⟩]
  exact ⟨h.1, h.2.2⟩

/-- Witness for C8 at a concrete fetched list with one completed and one
pending item. -/
theorem list_completed_pending_partition_witness :
    (CLI.findAllCommandFilter true false
        [⟨1, "a", "", true, 0, 0⟩, ⟨2, "b", "", false, 0, 0⟩] ++
      CLI.findAllCommandFilter false true
        [⟨1, "a", "", true, 0, 0⟩, ⟨2, "b", "", false, 0, 0⟩]).Perm
      [⟨1, "a", "", true, 0, 0⟩, ⟨2, "b", "", false, 0, 0⟩] :=
  (list_completed_pending_partition
    [⟨1, "a", "", true, 0, 0⟩, ⟨2, "b", "", false, 0, 0⟩]).1

/-- Witness for C9 at a concrete store: an update invocation with neither
flag supplied succeeds and blanks both text fields. -/
theorem updateCommand_missing_flag_blanks_field_witness :
    CLI.updateCommand [⟨2, "old", "od", false, 0, 0⟩] 2 none none 3 =
      .ok (⟨2, "", "", false, 0, 3⟩, [⟨2, "", "", false, 0, 3⟩]) ∧
    (⟨2, "", "", false, 0, 3⟩ : Todo).title = "" ∧
    (⟨2, "", "", false, 0, 3⟩ : Todo).description = "" := by
  have h := updateCommand_missing_flag_blanks_field [⟨2, "old", "od", false, 0, 0⟩] 2
    none none 3 ⟨2, "", "", false, 0, 3⟩ [⟨2, "", "", false, 0, 3⟩] rfl
  exact ⟨rfl, (h.1 rfl).1, (h.2 rfl).1⟩

/-- Witness for C10 at a concrete store of one row. -/
theorem DeleteTodo_then_FindByID_notFound_witness :
    (⟨4, "x", "y", false, 0, 0⟩ : Todo) ∈ ([⟨4, "x", "y", false, 0, 0⟩] : DB) ∧
    todoServiceImpl.DeleteTodo [⟨4, "x", "y", false, 0, 0⟩] 4 = .ok [] ∧
    TodoRepository.FindByID [] 4 = .error DBError.noRows := by
  have h := DeleteTodo_then_FindByID_notFound [⟨4, "x", "y", false, 0, 0⟩]
    ⟨4, "x", "y", false, 0, 0⟩ [] (by simp) rfl
  exact ⟨by simp, rfl, h⟩
